import Mathlib

/-!
Verification of the SQL safety-and-schema-conformance validator in
`Sql_final_metrics.py`.  Python strings are modelled as `List Char`
(ASCII model of `str.lower`, `str.strip`, `\s`, `\w` etc.); the
behaviour of every regular expression used by the source is embedded as
an explicit scanning function.  The external `sql_metadata.Parser` is an
external capability (spec section 4.3) and is modelled by the
`ParsedQueryFacts` structure passed to `query_validator` (an
`Except` value also covers its failure mode).
-/

namespace SqlV

/-- Python `str`, modelled as a list of characters. -/
abbrev Str := List Char

/-- Coerce a Lean string literal to the model type. -/
def str (s : String) : Str := s.data

/-- ASCII model of Python's `\s` / `str.strip` whitespace class:
space, tab, newline, carriage return, vertical tab, form feed. -/
def isWsChar (c : Char) : Bool :=
  c.toNat = 32 || (9 ≤ c.toNat && c.toNat ≤ 13)

/-- ASCII model of Python's `\w`: letters, digits and underscore. -/
def isWordChar (c : Char) : Bool :=
  (65 ≤ c.toNat && c.toNat ≤ 90) || (97 ≤ c.toNat && c.toNat ≤ 122) ||
  (48 ≤ c.toNat && c.toNat ≤ 57) || c.toNat = 95

/-- ASCII decimal digit (model of `str.isdigit`). -/
def isDigitChar (c : Char) : Bool :=
  48 ≤ c.toNat && c.toNat ≤ 57

/-- The quoting characters stripped by the source's `re.sub` calls:
backtick, double quote and square brackets. -/
def isQuoteChar (c : Char) : Bool :=
  c.toNat = 96 || c.toNat = 34 || c.toNat = 91 || c.toNat = 93

/-- Uppercase ASCII letter. -/
def upperAZ (c : Char) : Bool :=
  65 ≤ c.toNat && c.toNat ≤ 90

/-- ASCII model of Python `str.lower` on one character. -/
def lowerChar (c : Char) : Char :=
  if 65 ≤ c.toNat && c.toNat ≤ 90 then Char.ofNat (c.toNat + 32) else c

/-- ASCII model of Python `str.lower`. -/
def lowerStr (s : Str) : Str := s.map lowerChar

/-- Python `str.strip()` (both ends). -/
def stripStr (s : Str) : Str :=
  ((s.dropWhile isWsChar).reverse.dropWhile isWsChar).reverse

/-- Python `str.split(sep)` for a single-character separator
(keeps empty pieces, always returns at least one piece). -/
def splitChar (sep : Char) : Str → List Str
  | [] => [[]]
  | c :: r =>
    if c = sep then [] :: splitChar sep r
    else
      match splitChar sep r with
      | [] => [[c]]
      | p :: ps => (c :: p) :: ps

/-- Python `sep.join(pieces)`. -/
def joinSep (sep : Str) : List Str → Str
  | [] => []
  | [x] => x
  | x :: y :: r => x ++ sep ++ joinSep sep (y :: r)

/-- Case-insensitive match of a (lowercase) literal pattern as a prefix,
returning the rest of the input on success. -/
def icDrop (pat : Str) (s : Str) : Option Str :=
  match pat, s with
  | [], rest => some rest
  | _ :: _, [] => none
  | p :: ps, c :: cs => if lowerChar c = p then icDrop ps cs else none

/-- Case-insensitive literal-prefix test (pattern given in lowercase). -/
def icStarts (pat : Str) (s : Str) : Bool := (icDrop pat s).isSome

/-- Exact (case-sensitive) prefix test. -/
def hasPre (pat s : Str) : Bool :=
  match pat, s with
  | [], _ => true
  | _ :: _, [] => false
  | p :: ps, c :: cs => decide (p = c) && hasPre ps cs

/-- Exact substring test (Python `pat in s`). -/
def containsSub (pat : Str) : Str → Bool
  | [] => hasPre pat []
  | c :: r => hasPre pat (c :: r) || containsSub pat r

/-- First case-insensitive occurrence of a literal (lowercase) pattern,
returning the matched text exactly as it appears in the input
(the regex module's `match.group(0)` for a literal pattern). -/
def icFindLit (pat : Str) : Str → Option Str
  | [] => if icStarts pat [] then some [] else none
  | c :: r =>
    if icStarts pat (c :: r) then some ((c :: r).take pat.length)
    else icFindLit pat r

/-- Lexicographic comparison of strings by code point (Python `<=`). -/
def strLeB : Str → Str → Bool
  | [], _ => true
  | _ :: _, [] => false
  | x :: xs, y :: ys =>
    if x = y then strLeB xs ys else decide (x.toNat < y.toNat)

/-- Insert into a sorted list (ascending). -/
def insSorted (x : Str) : List Str → List Str
  | [] => [x]
  | y :: ys => if strLeB x y then x :: y :: ys else y :: insSorted x ys

/-- Python `sorted` for lists of strings. -/
def sortStrs (l : List Str) : List Str := l.foldr insSorted []

/-- Order-insensitive model of Python `list(set(xs))`:
duplicates removed, first occurrence kept. -/
def dedupeFirstSeen (l : List Str) : List Str := go [] l
where
  go : List Str → List Str → List Str
    | _, [] => []
    | seen, x :: xs =>
      if x ∈ seen then go seen xs else x :: go (x :: seen) xs

/-- No word character follows here (the right half of a `\b` after a
word character, or end of input). -/
def boundaryAfter (s : Str) : Bool :=
  match s with
  | [] => true
  | c :: _ => !isWordChar c

/-- `re.search(r'\b<kw>\b', s, re.IGNORECASE)` for a purely-alphabetic
keyword: scan every position, tracking the previous character for the
left word boundary. -/
def containsWord (kw : Str) (s : Str) : Bool := go none s
where
  go : Option Char → Str → Bool
    | _, [] => false
    | prev, c :: r =>
      ((match prev with
        | none => true
        | some p => !isWordChar p) &&
       icStarts (lowerStr kw) (c :: r) &&
       boundaryAfter ((c :: r).drop kw.length)) ||
      go (some c) r

/-- `re.search(r'\bORDER\s+BY\b', s, re.IGNORECASE)`. -/
def containsOrderBy (s : Str) : Bool := go none s
where
  here (u : Str) : Bool :=
    match icDrop (str "order") u with
    | none => false
    | some v =>
      match v with
      | [] => false
      | c :: _ =>
        isWsChar c &&
        (match icDrop (str "by") (v.dropWhile isWsChar) with
         | none => false
         | some w => boundaryAfter w)
  go : Option Char → Str → Bool
    | _, [] => false
    | prev, c :: r =>
      ((match prev with
        | none => true
        | some p => !isWordChar p) && here (c :: r)) ||
      go (some c) r

/-- `re.search(r'\b(ON|USING)\b', s, re.IGNORECASE)`. -/
def containsOnUsing (s : Str) : Bool :=
  containsWord (str "ON") s || containsWord (str "USING") s

/-- `re.match(r'\s*SELECT', q, re.IGNORECASE | re.DOTALL)`. -/
def startsSelect (q : Str) : Bool :=
  icStarts (str "select") (q.dropWhile isWsChar)

/-- `re.match(r'\s*WITH\s+.*?\s+AS\s*\(.*?\)\s*SELECT', q,
re.IGNORECASE | re.DOTALL)`: after `WITH` there must be a nonempty
whitespace run, then (anything, with a whitespace character immediately
before) `AS`, optional whitespace, `(`, anything up to some `)`,
optional whitespace, `SELECT`. -/
def withCteMatch (q : Str) : Bool :=
  match icDrop (str "with") (q.dropWhile isWsChar) with
  | none => false
  | some r1 =>
    match r1 with
    | [] => false
    | c0 :: rest0 =>
      isWsChar c0 &&
      (match rest0 with
       | [] => false
       | c1 :: rest1 => scanAs c1 rest1)
where
  afterParen : Str → Bool
    | [] => false
    | c :: r =>
      (decide (c = ')') && icStarts (str "select") (r.dropWhile isWsChar)) ||
      afterParen r
  asHere (u : Str) : Bool :=
    match icDrop (str "as") u with
    | none => false
    | some v =>
      match v.dropWhile isWsChar with
      | '(' :: v1 => afterParen v1
      | _ => false
  scanAs : Char → Str → Bool
    | _, [] => false
    | prev, c :: r =>
      (isWsChar prev && asHere (c :: r)) || scanAs c r

/-- First match of `xp_cmdshell` (case-insensitive), matched text. -/
def xpCmdshellFind (s : Str) : Option Str := icFindLit (str "xp_cmdshell") s

/-- First match of `exec(\s|\()` (case-insensitive), matched text. -/
def execFind : Str → Option Str
  | [] => none
  | c :: r =>
    if icStarts (str "exec") (c :: r) &&
       (match (c :: r).drop 4 with
        | [] => false
        | d :: _ => isWsChar d || decide (d = '(')) then
      some ((c :: r).take 5)
    else execFind r

/-- First match of `sp_` (case-insensitive), matched text. -/
def spFind (s : Str) : Option Str := icFindLit (str "sp_") s

/-- First match of `xp_` (case-insensitive), matched text. -/
def xpFind (s : Str) : Option Str := icFindLit (str "xp_") s

/-- First match of `;\s*--`, matched text (`;`, a whitespace run, `--`).
The whitespace run before `--` is forced to be maximal since a
whitespace character can never start `--`. -/
def semiCommentFind : Str → Option Str
  | [] => none
  | c :: r =>
    if decide (c = ';') &&
       hasPre (str "--") (r.dropWhile isWsChar) then
      some ((c :: r).take (1 + (r.takeWhile isWsChar).length + 2))
    else semiCommentFind r

/-- Can the remainder after a semicolon be absorbed by the negative
lookahead `(?!\s*(--.*)?$)` of the semicolon-misuse regex?  True when
the rest is all whitespace, or whitespace then `--` then
newline-free text reaching the end (or the position just before a
single trailing newline). -/
def semiTailOk (r : Str) : Bool :=
  r.all isWsChar ||
  (let t := r.dropWhile isWsChar
   hasPre (str "--") t &&
   (let u := t.drop 2
    u.dropLast.all (fun c => !decide (c = '\n'))))

/-- `re.search(r';(?!\s*(--.*)?$)', q.strip())`: some semicolon is not
the last meaningful character. -/
def semicolonMisuse (q : Str) : Bool := go (stripStr q)
where
  go : Str → Bool
    | [] => false
    | c :: r => (decide (c = ';') && !semiTailOk r) || go r

/-- `re.search(r'\bCROSS\s+JOIN\b', s, re.IGNORECASE)`. -/
def containsCrossJoin (s : Str) : Bool := go none s
where
  here (u : Str) : Bool :=
    match icDrop (str "cross") u with
    | none => false
    | some v =>
      match v with
      | [] => false
      | c :: _ =>
        isWsChar c &&
        (match icDrop (str "join") (v.dropWhile isWsChar) with
         | none => false
         | some w => boundaryAfter w)
  go : Option Char → Str → Bool
    | _, [] => false
    | prev, c :: r =>
      ((match prev with
        | none => true
        | some p => !isWordChar p) && here (c :: r)) ||
      go (some c) r

/-- The negative lookahead `(?!\s+(ON|USING)\b)` fails exactly when the
text starts with a nonempty whitespace run followed by `ON` or `USING`
at a word boundary. -/
def onUsingAhead (s : Str) : Bool :=
  match s with
  | [] => false
  | c :: _ =>
    isWsChar c &&
    (let v := s.dropWhile isWsChar
     (match icDrop (str "on") v with
      | none => false
      | some w => boundaryAfter w) ||
     (match icDrop (str "using") v with
      | none => false
      | some w => boundaryAfter w))

/-- Backtracking search for
`\bJOIN\s+([\w.]+)(\s+\w+)?(?!\s+(ON|USING)\b)` at one position:
given the text after `JOIN\s+`, return the remainder of the input after
the end of the first successful assignment of the two groups (the
engine shrinks the optional alias group, then drops it, then shrinks
the table group). -/
def joinAssign (afterWs : Str) : Option Str :=
  let run := afterWs.takeWhile (fun c => isWordChar c || decide (c = '.'))
  let r3 := afterWs.drop run.length
  if run.isEmpty then none
  else
    -- group1 maximal, optional group2 `\s+\w+` with a shrinking `\w+`
    let wsRun := r3.takeWhile isWsChar
    let r4 := r3.drop wsRun.length
    let wRun := r4.takeWhile isWordChar
    let g2Cands :=
      if wsRun.isEmpty then []
      else (List.range wRun.length).map
        (fun i => r4.drop (wRun.length - i) )
    let cands := g2Cands ++ [r3] ++
      (List.range (run.length - 1)).map
        (fun i => afterWs.drop (run.length - 1 - i))
    cands.find? (fun rem => !onUsingAhead rem)

/-- `re.search(r'\bJOIN\s+([\w.]+)(\s+\w+)?(?!\s+(ON|USING)\b)', s,
re.IGNORECASE)`: leftmost successful match, returning the text after
the match end. -/
def joinSearch (s : Str) : Option Str := go none s
where
  go : Option Char → Str → Option Str
    | _, [] => none
    | prev, c :: r =>
      match
        (if (match prev with
             | none => true
             | some p => !isWordChar p) then
          match icDrop (str "join") (c :: r) with
          | none => none
          | some v =>
            match v with
            | [] => none
            | d :: _ =>
              if isWsChar d then joinAssign (v.dropWhile isWsChar)
              else none
         else none) with
      | some rem => some rem
      | none => go (some c) r

/-- `re.search(r'\bJOIN\b', s, re.IGNORECASE)` on a fresh string,
returning the text before the match start (used for
`substring_after_join[:next_join_match.start()]`). -/
def findWordSplitBefore (kw : Str) (s : Str) : Option Str := go none s
where
  go : Option Char → Str → Option Str
    | _, [] => none
    | prev, c :: r =>
      if (match prev with
          | none => true
          | some p => !isWordChar p) &&
         icStarts (lowerStr kw) (c :: r) &&
         boundaryAfter ((c :: r).drop kw.length) then
        some []
      else
        match go (some c) r with
        | none => none
        | some pre => some (c :: pre)

/-! ### `SQLQueryInspector.inspect_query` -/

/-- The fixed disallowed-keyword list of the inspector. -/
def disallowedKeywords : List Str :=
  [str "DROP", str "DELETE", str "TRUNCATE", str "UPDATE", str "INSERT",
   str "ALTER", str "CREATE", str "GRANT", str "REVOKE"]

/-- Issue appended when the query does not start with `SELECT` or a
`WITH ... AS (...) SELECT` header. -/
def selectOnlySegment (q : Str) : List Str :=
  if startsSelect q || withCteMatch q then []
  else [str "Only SELECT statements or CTEs (WITH...SELECT) are allowed."]

/-- One issue per disallowed keyword found as a whole word. -/
def disallowedIssues (q : Str) : List Str :=
  disallowedKeywords.filterMap (fun kw =>
    if containsWord kw q then
      some (str "Potential disallowed operation detected: '" ++ kw ++ str "'.")
    else none)

/-- One issue per unsafe pattern found, quoting the stripped matched
text, in the source's pattern order. -/
def unsafeIssues (q : Str) : List Str :=
  [xpCmdshellFind q, execFind q, spFind q, xpFind q,
   semiCommentFind q].filterMap (fun o =>
    o.map (fun m =>
      str "Potentially unsafe SQL pattern '" ++ stripStr m ++
      str "' detected."))

/-- Issue for `LIMIT`/`OFFSET` without `ORDER BY`. -/
def limitOffsetIssue (q : Str) : Option Str :=
  if (containsWord (str "LIMIT") q || containsWord (str "OFFSET") q) &&
     !containsOrderBy q then
    some (str "Use of LIMIT/OFFSET without ORDER BY may result in unpredictable results.")
  else none

/-- The semicolon-misuse issue; the suppression loop looks for the
literal pattern text `;\s*--` inside the already-collected issues. -/
def semicolonSegment (prior : List Str) (q : Str) : List Str :=
  if semicolonMisuse q then
    if prior.any (fun iss =>
        containsSub (str ";\\s*--") iss &&
        containsSub (str "Potentially unsafe SQL pattern") iss) then []
    else [str "Avoid the use of semicolons (;) except possibly at the very end of the query."]
  else []

/-- The Cartesian-product warning for an unqualified `JOIN`.  The
source first calls `findall` and then `search` with the same pattern;
both are nonempty/successful under exactly the same condition, so a
single search models the pair. -/
def joinIssue (q : Str) : Option Str :=
  match joinSearch q with
  | none => none
  | some afterJoin =>
    if containsCrossJoin q then none
    else
      let searchArea :=
        match findWordSplitBefore (str "JOIN") afterJoin with
        | some pre => pre
        | none => afterJoin
      if containsOnUsing searchArea then none
      else some (str "Use of JOIN without an ON/USING clause may result in a Cartesian product. Specify join conditions or use CROSS JOIN.")

/-- The `UNION` warning. -/
def unionIssue (q : Str) : Option Str :=
  if containsWord (str "UNION") q then
    some (str "UNION queries detected. Ensure column counts and types match in each SELECT.")
  else none

/-- The first four issue groups (those present when the semicolon
check runs its suppression loop). -/
def issuesBeforeSemicolon (q : Str) : List Str :=
  selectOnlySegment q ++ disallowedIssues q ++ unsafeIssues q ++
  (limitOffsetIssue q).toList

/-- The full issue list collected by `inspect_query`, in source order. -/
def inspectIssues (q : Str) : List Str :=
  issuesBeforeSemicolon q ++ semicolonSegment (issuesBeforeSemicolon q) q ++
  (joinIssue q).toList ++ (unionIssue q).toList

/-- The multi-line issues report returned by `inspect_query` when some
issue was found. -/
def inspectIssuesStr (q : Str) : Str :=
  str "Detected issues while validating SQL query:\n" ++
  joinSep (str "\n") ((inspectIssues q).map (fun i => str "- " ++ i))

/-- `inspect_query`: the issues report, or the query itself when no
issue was found. -/
def inspectResult (q : Str) : Str :=
  if inspectIssues q = [] then q else inspectIssuesStr q

/-! ### Schema conformance (`check_and_clean_columns`, `validate_columns`) -/

/-- A schema mapping: association list from table name to column list
(Python dict with insertion order). -/
abbrev SchemaMap := List (Str × List Str)

/-- Dict lookup. -/
def lookupMap (m : SchemaMap) (k : Str) : Option (List Str) :=
  match m with
  | [] => none
  | (k', v) :: r => if k' = k then some v else lookupMap r k

/-- Dict keys. -/
def mapKeys (m : SchemaMap) : List Str := m.map (fun e => e.1)

/-- Dict insert-or-replace (`d[k] = v`; a replaced key keeps its
position, as in Python). -/
def upsert (m : SchemaMap) (k : Str) (v : List Str) : SchemaMap :=
  match m with
  | [] => [(k, v)]
  | (k', v') :: r =>
    if k' = k then (k, v) :: r else (k', v') :: upsert r k v

/-- `agg_pattern.match(c)`:
`^(COUNT|SUM|AVG|MIN|MAX)\s*\(\s*(?:\*|\w+|\bDISTINCT\b\s+\w+)\s*\)`
(case-insensitive, anchored at the start only). -/
def aggMatch (c : Str) : Bool :=
  [str "count", str "sum", str "avg", str "min", str "max"].any (fun f =>
    match icDrop f c with
    | none => false
    | some r1 =>
      match (r1.dropWhile isWsChar) with
      | '(' :: r2 =>
        let b := r2.dropWhile isWsChar
        (match b with
         | '*' :: r3 => closeParen r3
         | _ =>
           let w := b.takeWhile isWordChar
           !w.isEmpty &&
           (closeParen (b.drop w.length) ||
            (decide (lowerStr w = str "distinct") &&
             (match b.drop w.length with
              | [] => false
              | d :: _ =>
                isWsChar d &&
                (let b2 := (b.drop w.length).dropWhile isWsChar
                 let w2 := b2.takeWhile isWordChar
                 !w2.isEmpty && closeParen (b2.drop w2.length))))))
      | _ => false)
where
  closeParen (r : Str) : Bool :=
    match r.dropWhile isWsChar with
    | ')' :: _ => true
    | _ => false

/-- Python `str.isdigit` (ASCII model): nonempty, all digits. -/
def isDigitStr (c : Str) : Bool := !c.isEmpty && c.all isDigitChar

/-- `re.match(r'^\w+\(\s*\)$', c)`: a zero-argument function call. -/
def zeroArgCall (c : Str) : Bool :=
  let w := c.takeWhile isWordChar
  !w.isEmpty &&
  (match c.drop w.length with
   | '(' :: r =>
     (match r.dropWhile isWsChar with
      | [')'] => true
      | [')', '\n'] => true
      | _ => false)
   | _ => false)

/-- A projected column acceptable in a table-less simple `SELECT`. -/
def simpleColOk (c : Str) : Bool :=
  isDigitStr c || decide (c = str "*") || aggMatch c || zeroArgCall c

/-- `col_raw.split('.', 1)` when a dot is present: text before the
first dot and text after it. -/
def splitFirstDot : Str → Option (Str × Str)
  | [] => none
  | c :: r =>
    if c = '.' then some ([], r)
    else
      match splitFirstDot r with
      | none => none
      | some pp => some (c :: pp.1, pp.2)

/-- One iteration of the `check_and_clean_columns` loop: the value
appended to the validation list for one raw projected column, if any. -/
def cleanColStep (ctesPresent : Bool) (knownPrefixes : List Str)
    (colRaw : Str) : Option Str :=
  if aggMatch colRaw then none
  else if ctesPresent then
    match splitFirstDot colRaw with
    | some pp =>
      if lowerStr pp.1 ∈ knownPrefixes then some (lowerStr pp.2) else none
    | none => none
  else
    if '.' ∈ colRaw then
      some (lowerStr ((splitChar '.' colRaw).getLastD []))
    else if colRaw = str "*" then none
    else some (lowerStr colRaw)

/-- `check_and_clean_columns`: the source's loop appends at most one
entry per raw column and never reads the accumulator, so it is a
`filterMap`; the final `list(set(...))` is the order-insensitive
deduplication (all downstream uses are membership tests or
sorted-deduplicated message lists). -/
def check_and_clean_columns (columnsRaw : List Str) (ctesPresent : Bool)
    (knownAliases knownNames : List Str) : List Str :=
  dedupeFirstSeen
    (columnsRaw.filterMap (cleanColStep ctesPresent (knownAliases ++ knownNames)))

/-- The `unknown_tables` list collected by `validate_columns`
(the source's single loop builds this list and the valid-column set
independently, so the two folds are split here). -/
def unknownTablesIn (tablesLower : List Str) (mapping : SchemaMap) : List Str :=
  tablesLower.foldl (fun acc t =>
    match lookupMap mapping t with
    | some _ => acc
    | none => if t ∈ acc then acc else acc ++ [t]) []

/-- The `valid_columns_for_query` set: `*` plus the lowercased columns
of every referenced table found in the mapping. -/
def validColumnsSet (mapping : SchemaMap) (tablesLower : List Str) : List Str :=
  tablesLower.foldl (fun acc t =>
    match lookupMap mapping t with
    | some cols => acc ++ cols.map lowerStr
    | none => acc) [str "*"]

/-- The undefined-tables error message of `validate_columns`. -/
def undefinedTablesMsg (unknowns : List Str) : Str :=
  str "Query references undefined tables: " ++
  joinSep (str ", ") (sortStrs unknowns)

/-- The invalid-columns error message of `validate_columns`. -/
def columnsNotDefinedMsg (invalid tablesLower : List Str) : Str :=
  str "Columns [" ++
  joinSep (str ", ") (sortStrs (dedupeFirstSeen invalid)) ++
  str "] are not defined for the referenced tables [" ++
  joinSep (str ", ") (sortStrs (dedupeFirstSeen tablesLower)) ++
  str "]"

/-- The `invalid_columns` list collected by `validate_columns`. -/
def invalidColumnsIn (cleanedCols : List Str) (mapping : SchemaMap)
    (tablesLower : List Str) : List Str :=
  cleanedCols.filter (fun c =>
    !decide (c ∈ validColumnsSet mapping tablesLower) && !decide (c = str "*"))

/-- `validate_columns`. -/
def validate_columns (extractedTables cleanedCols : List Str)
    (mapping : SchemaMap) : Bool × List Str :=
  if (unknownTablesIn (extractedTables.map lowerStr) mapping).isEmpty then
    if (invalidColumnsIn cleanedCols mapping (extractedTables.map lowerStr)).isEmpty then
      (true, [])
    else
      (false, [columnsNotDefinedMsg
        (invalidColumnsIn cleanedCols mapping (extractedTables.map lowerStr))
        (extractedTables.map lowerStr)])
  else
    (false, [undefinedTablesMsg
      (unknownTablesIn (extractedTables.map lowerStr) mapping)])

/-! ### `query_validator` -/

/-- The output of the external structural analyzer `sql_metadata.Parser`
(spec section 4.3): referenced tables, alias mapping, raw projected
columns, CTE names. -/
structure ParsedQueryFacts where
  tables : List Str
  tablesAliases : List (Str × Str)
  columns : List Str
  withNames : List Str

/-- The alias keys kept by `query_validator`: aliases whose target
table (lowercased) is a schema key, themselves lowercased. -/
def knownAliasList (facts : ParsedQueryFacts) (mapping : SchemaMap) : List Str :=
  (facts.tablesAliases.filter (fun p =>
    decide (lowerStr p.2 ∈ mapKeys mapping))).map (fun p => lowerStr p.1)

/-- `actual_base_tables_to_validate`: the parsed tables (lowercased)
restricted to schema keys. -/
def actualBaseTables (facts : ParsedQueryFacts) (mapping : SchemaMap) : List Str :=
  (facts.tables.map lowerStr).filter (fun t => decide (t ∈ mapKeys mapping))

/-- `"Validation Error: " + ", ".join(issues)`. -/
def validationErrorOf (issues : List Str) : Str :=
  str "Validation Error: " ++ joinSep (str ", ") issues

/-- The rejection for a table-less query with non-simple columns. -/
def simpleSelectErr : Str :=
  str "Validation Error: Columns specified without a valid table or CTE reference."

/-- `query_validator` short-circuits on safety issues only through the
string comparison `output_query_or_error != query`; this is true
exactly when the structural stage (parser and conformance checker) is
reached. -/
def structuralStageReached (q : Str) : Bool := decide (inspectResult q = q)

/-- The cleaned column list computed inside `query_validator`. -/
def cleanedColumnsOf (facts : ParsedQueryFacts) (mapping : SchemaMap) : List Str :=
  check_and_clean_columns facts.columns (!facts.withNames.isEmpty)
    (knownAliasList facts mapping) (mapKeys mapping)

/-- The `validate_columns` call made by `query_validator`. -/
def conformanceResult (facts : ParsedQueryFacts) (mapping : SchemaMap) :
    Bool × List Str :=
  validate_columns (actualBaseTables facts mapping)
    (cleanedColumnsOf facts mapping) mapping

/-- `query_validator`.  The structural analysis is external, so its
outcome (facts, or the text of the raised exception) is a parameter. -/
def query_validator (q : Str) (parse : Except Str ParsedQueryFacts)
    (mapping : SchemaMap) : Str :=
  if inspectResult q ≠ q then inspectResult q
  else
    match parse with
    | Except.error e =>
      if containsSub (str "Unknown token") e || containsSub (str "Parse") e ||
         containsSub (str "Syntax error") e then
        str "Validation Error: Failed to parse the query structure. Check syntax. (Details: " ++
        e ++ str ")"
      else
        str "Validation Error: An unexpected issue occurred during validation. (Details: " ++
        e ++ str ")"
    | Except.ok facts =>
      if (facts.tables.map lowerStr).isEmpty && facts.withNames.isEmpty then
        if facts.columns.all simpleColOk then q else simpleSelectErr
      else
        if (conformanceResult facts mapping).1 then q
        else validationErrorOf (conformanceResult facts mapping).2

/-! ### `generate_table_mapping_from_create_statements` -/

/-- Character class of the table-name group `[`"\[\w.]+`
(backtick, double quote, opening bracket, word characters, dot). -/
def isNameChar (c : Char) : Bool :=
  decide (c = '`') || decide (c = '"') || decide (c = '[') ||
  isWordChar c || decide (c = '.')

/-- Character class of the column-name groups `[`"\[\w]+`. -/
def isColNameChar (c : Char) : Bool :=
  decide (c = '`') || decide (c = '"') || decide (c = '[') || isWordChar c

/-- Drop a (lowercase) literal keyword followed by at least one
whitespace character, consuming the whole whitespace run. -/
def icDropKwWs (kw : Str) (s : Str) : Option Str :=
  match icDrop kw s with
  | none => none
  | some r =>
    match r with
    | [] => none
    | c :: _ => if isWsChar c then some (r.dropWhile isWsChar) else none

/-- The header regex of the extractor,
`\s*CREATE\s+(?:OR\s+REPLACE\s+)?(?:TABLE|VIEW)\s+(?:IF\s+NOT\s+EXISTS\s+)?([`"\[\w.]+)(?:\s+AS\b)?`
(case-insensitive `re.match`), returning the raw table-name group.
When the optional `IF NOT EXISTS` part matches but no name character
follows it, the engine backtracks and the group is taken directly
(it then reads `IF`). -/
def createMatch (stmt : Str) : Option Str :=
  match icDropKwWs (str "create") (stmt.dropWhile isWsChar) with
  | none => none
  | some r2 =>
    let r3 :=
      match icDropKwWs (str "or") r2 with
      | none => r2
      | some a =>
        match icDropKwWs (str "replace") a with
        | none => r2
        | some b => b
    match
      (match icDropKwWs (str "table") r3 with
       | some x => some x
       | none => icDropKwWs (str "view") r3) with
    | none => none
    | some r4 =>
      let direct := r4.takeWhile isNameChar
      match icDropKwWs (str "if") r4 with
      | none => if direct.isEmpty then none else some direct
      | some a =>
        match icDropKwWs (str "not") a with
        | none => if direct.isEmpty then none else some direct
        | some b =>
          match icDropKwWs (str "exists") b with
          | none => if direct.isEmpty then none else some direct
          | some r5 =>
            let run := r5.takeWhile isNameChar
            if run.isEmpty then
              if direct.isEmpty then none else some direct
            else some run

/-- Remove quoting characters (`re.sub(r'[`"\[\]]', '', s)`). -/
def stripQuotesF (s : Str) : Str := s.filter (fun c => !isQuoteChar c)

/-- `table_name.split('.')[-1]` when a dot is present. -/
def lastDotSegment (s : Str) : Str :=
  if '.' ∈ s then (splitChar '.' s).getLastD [] else s

/-- Table-name normalisation: schema-unqualify, strip quoting,
lowercase. -/
def normalizeTableName (raw : Str) : Str :=
  lowerStr (stripQuotesF (lastDotSegment raw))

/-- Scan for the terminator `(?:\bFROM\b|\);?|$)` of the view select
list (lazy `.*?` stops at the earliest position where a terminator
matches); returns the collected group text.  The previous character is
tracked for the `\b` before `FROM`. -/
def viewGroupUpTo : Option Char → Str → Str
  | _, [] => []
  | prev, c :: r =>
    if (match prev with
        | none => true
        | some p => !isWordChar p) &&
       icStarts (str "from") (c :: r) &&
       boundaryAfter ((c :: r).drop 4) then []
    else if c = ')' then []
    else if c = '\n' && r.isEmpty then []
    else c :: viewGroupUpTo (some c) r

/-- `re.search(r'\bAS\b\s*\(\s*SELECT\s+(.*?)(?:\bFROM\b|\);?|$)',
stmt, re.IGNORECASE | re.DOTALL)`: find the first `AS` (at word
boundaries) followed by optional whitespace, `(`, optional whitespace,
`SELECT` and at least one whitespace character; return the lazily
collected select-list group. -/
def viewSelectSearch (stmt : Str) : Option Str := go none stmt
where
  here (u : Str) : Option Str :=
    match icDrop (str "as") u with
    | none => none
    | some v =>
      if boundaryAfter v then
        match v.dropWhile isWsChar with
        | '(' :: v1 =>
          (match icDrop (str "select") (v1.dropWhile isWsChar) with
           | none => none
           | some w =>
             match w with
             | [] => none
             | d :: _ =>
               if isWsChar d then
                 some (viewGroupUpTo (some d) (w.dropWhile isWsChar))
               else none)
        | _ => none
      else none
  go : Option Char → Str → Option Str
    | _, [] => none
    | prev, c :: r =>
      match
        (if (match prev with
             | none => true
             | some p => !isWordChar p) then here (c :: r) else none) with
      | some g => some g
      | none => go (some c) r

/-- `re.search(r'\(\s*(.*?)\s*\)[^)]*$', stmt, re.DOTALL)`: the text
between the first `(` that precedes the last `)` of the statement and
that last `)` (the group is stripped by the caller anyway). -/
def columnsSearch (stmt : Str) : Option Str :=
  let lastClose := stmt.length - 1 - (stmt.reverse.takeWhile (fun c => !decide (c = ')'))).length
  let firstOpen := (stmt.takeWhile (fun c => !decide (c = '('))).length
  if ')' ∈ stmt && '(' ∈ stmt && firstOpen < lastClose then
    some ((stmt.take lastClose).drop (firstOpen + 1))
  else none

/-- `re.split(r',\s*', s)`: split on commas, each comma consuming the
following whitespace run. -/
def splitCommaWs (s : Str) : List Str := go false s
where
  go : Bool → Str → List Str
    | _, [] => [[]]
    | skip, c :: r =>
      if skip && isWsChar c then go true r
      else if c = ',' then [] :: go true r
      else
        match go false r with
        | [] => [[c]]
        | p :: ps => (c :: p) :: ps

/-- The source's character-by-character splitter of the column
definition list on commas at parenthesis depth 0; intermediate pieces
are stripped unconditionally, the final piece only if nonempty. -/
def parenDepthSplit (columnsDef : Str) : List Str := go 0 [] columnsDef
where
  go (level : Int) (cur : Str) : Str → List Str
    | [] => if (stripStr cur.reverse).isEmpty then [] else [stripStr cur.reverse]
    | c :: r =>
      let level' := if c = '(' then level + 1 else if c = ')' then level - 1 else level
      if c = ',' && level' = 0 then stripStr cur.reverse :: go level' [] r
      else go level' (c :: cur) r

/-- `re.search(r'\bAS\b\s+([`"\[\w]+)', col, re.IGNORECASE)`: explicit
alias of a view column. -/
def aliasSearch (col : Str) : Option Str := go none col
where
  here (u : Str) : Option Str :=
    match icDrop (str "as") u with
    | none => none
    | some v =>
      if boundaryAfter v then
        match v with
        | [] => none
        | c :: _ =>
          if isWsChar c then
            let run := (v.dropWhile isWsChar).takeWhile isColNameChar
            if run.isEmpty then none else some run
          else none
      else none
  go : Option Char → Str → Option Str
    | _, [] => none
    | prev, c :: r =>
      match
        (if (match prev with
             | none => true
             | some p => !isWordChar p) then here (c :: r) else none) with
      | some g => some g
      | none => go (some c) r

/-- `re.sub(r'.*\(|\).*', '', s)`: at each position, first try to
delete up to the last `(` of the current line, else delete from a `)`
to the end of the current line, else keep the character. -/
def funcStrip (s : Str) : Str := go s.length s
where
  go : Nat → Str → Str
    | 0, _ => []
    | _, [] => []
    | fuel + 1, c :: r =>
      let line := (c :: r).takeWhile (fun d => !decide (d = '\n'))
      let opens := line.filter (fun d => decide (d = '('))
      if opens.isEmpty then
        if c = ')' then go fuel ((c :: r).drop line.length)
        else c :: go fuel r
      else
        let lastOpen := line.length - 1 -
          ((line.reverse.takeWhile (fun d => !decide (d = '(')))).length
        go fuel ((c :: r).drop (lastOpen + 1))

/-- The output-column name derived for one piece of a view select
list: prefer an explicit `AS` alias, else the last dot-qualified
segment with a function-call wrapper stripped; quote-strip and
lowercase. -/
def viewColName (piece : Str) : Str :=
  match aliasSearch (stripStr piece) with
  | some run => lowerStr (stripQuotesF run)
  | none =>
    lowerStr (stripQuotesF
      (stripStr (funcStrip (stripStr
        ((splitChar '.' (stripStr piece)).getLastD [])))))

/-- Append one view column to the accumulator under the source's
guards (nonempty, not yet present, not `*`). -/
def addViewCol (cols : List Str) (piece : Str) : List Str :=
  if !(viewColName piece).isEmpty && !decide (viewColName piece ∈ cols) &&
     !decide (viewColName piece = str "*") then
    cols ++ [viewColName piece]
  else cols

/-- `re.match(r'\s*(CONSTRAINT|PRIMARY\s+KEY|FOREIGN\s+KEY|UNIQUE|CHECK|INDEX)',
col_def, re.IGNORECASE)`. -/
def constraintMatch (colDef : Str) : Bool :=
  let v := colDef.dropWhile isWsChar
  icStarts (str "constraint") v ||
  (icDropKwWs (str "primary") v).elim false (fun w => icStarts (str "key") w) ||
  (icDropKwWs (str "foreign") v).elim false (fun w => icStarts (str "key") w) ||
  icStarts (str "unique") v || icStarts (str "check") v ||
  icStarts (str "index") v

/-- Append one table column to the accumulator: skip constraint-like
definitions, take the first identifier run, quote-strip and lowercase,
dedupe. -/
def addTableCol (cols : List Str) (colDef : Str) : List Str :=
  if constraintMatch colDef then cols
  else if ((colDef.dropWhile isWsChar).takeWhile isColNameChar).isEmpty then cols
  else if lowerStr (stripQuotesF
      ((colDef.dropWhile isWsChar).takeWhile isColNameChar)) ∈ cols then cols
  else
    cols ++ [lowerStr (stripQuotesF
      ((colDef.dropWhile isWsChar).takeWhile isColNameChar))]

/-- The column list discovered for one statement (always starting with
the `*` sentinel). -/
def discoverColumns (stmt : Str) : List Str :=
  match viewSelectSearch stmt with
  | some g =>
    (splitCommaWs (stripStr g)).foldl addViewCol [str "*"]
  | none =>
    match columnsSearch stmt with
    | some g => (parenDepthSplit (stripStr g)).foldl addTableCol [str "*"]
    | none => [str "*"]

/-- Process one `;`-separated piece of the DDL text. -/
def processStatement (acc : SchemaMap) (stmtRaw : Str) : SchemaMap :=
  if (stripStr stmtRaw).isEmpty then acc
  else
    match createMatch (stripStr stmtRaw) with
    | none => acc
    | some raw =>
      if 1 < (discoverColumns (stripStr stmtRaw)).length then
        upsert acc (normalizeTableName raw) (discoverColumns (stripStr stmtRaw))
      else acc

/-- `generate_table_mapping_from_create_statements`. -/
def generate_table_mapping_from_create_statements (ddl : Str) : SchemaMap :=
  (splitChar ';' ddl).foldl processStatement []

/-- Invariant maintained while a statement's column list is built:
nonempty, headed by the `*` sentinel, uppercase-free entries, no
duplicates. -/
def goodColsInv (cols : List Str) : Prop :=
  cols ≠ [] ∧ cols.head? = some (str "*") ∧
  (∀ s ∈ cols, ∀ c ∈ s, upperAZ c = false) ∧ cols.Nodup

/-- The entry invariant of the extracted schema mapping: lowercase
quote-free unqualified key; column list headed by `*`, lowercase,
duplicate-free, of length at least 2. -/
def goodEntry (k : Str) (cols : List Str) : Prop :=
  (∀ c ∈ k, upperAZ c = false) ∧ (∀ c ∈ k, isQuoteChar c = false) ∧ '.' ∉ k ∧
  cols.head? = some (str "*") ∧ (∀ s ∈ cols, ∀ c ∈ s, upperAZ c = false) ∧
  cols.Nodup ∧ 2 ≤ cols.length

/-! ### Concrete fixtures (spec section 8 scenarios) -/

/-- The scenario-1 DDL text. -/
def scenario1DDL : Str :=
  str "CREATE TABLE customers(customer_id INT, first_name VARCHAR(50), email VARCHAR(100));"

/-- The scenario-1 schema mapping, derived by the extractor. -/
def scenario1Schema : SchemaMap :=
  generate_table_mapping_from_create_statements scenario1DDL

/-- Parser facts for `SELECT first_name, email FROM customers;`
(per the analyzer contract of spec section 4.3). -/
def scenario1Facts : ParsedQueryFacts :=
  ParsedQueryFacts.mk [str "customers"] [] [str "first_name", str "email"] []

/-! ### Supporting lemmas -/

theorem charOfNat_toNat (n : Nat) (h : n < 55296) : (Char.ofNat n).toNat = n := by
  unfold Char.ofNat
  rw [dif_pos (Or.inl h)]
  rfl

theorem lowerChar_toNat (c : Char) :
    (lowerChar c).toNat =
      if 65 ≤ c.toNat ∧ c.toNat ≤ 90 then c.toNat + 32 else c.toNat := by
  unfold lowerChar
  by_cases h : 65 ≤ c.toNat ∧ c.toNat ≤ 90
  · rw [if_pos (by simp only [Bool.and_eq_true, decide_eq_true_eq]; exact h), if_pos h]
    exact charOfNat_toNat _ (by omega)
  · rw [if_neg (by simp only [Bool.and_eq_true, decide_eq_true_eq, not_and]; exact fun h1 h2 => h ⟨h1, h2⟩), if_neg h]

theorem toNat_inj_char {a b : Char} (h : a.toNat = b.toNat) : a = b :=
  Char.eq_of_val_eq (UInt32.eq_of_toBitVec_eq (BitVec.eq_of_toNat_eq h))

theorem upperAZ_lowerChar (c : Char) : upperAZ (lowerChar c) = false := by
  unfold upperAZ
  have := lowerChar_toNat c
  by_cases h : 65 ≤ c.toNat ∧ c.toNat ≤ 90 <;>
    simp [h] at this <;> simp [this] <;> omega

theorem lowerChar_idem (c : Char) : lowerChar (lowerChar c) = lowerChar c := by
  have h1 := lowerChar_toNat (lowerChar c)
  have h2 := lowerChar_toNat c
  apply toNat_inj_char
  by_cases h : 65 ≤ c.toNat ∧ c.toNat ≤ 90 <;> simp [h] at h2 <;>
    rw [h1, h2] <;> simp <;> omega

theorem lowerStr_idem (s : Str) : lowerStr (lowerStr s) = lowerStr s := by
  unfold lowerStr
  rw [List.map_map]
  exact List.map_congr_left (fun c _ => lowerChar_idem c)

/-- A character whose lowercase image is outside the lowercase-letter
range is fixed by `lowerChar`. -/
theorem lowerChar_fixed_target {c t : Char}
    (ht : ¬(97 ≤ t.toNat ∧ t.toNat ≤ 122)) (h : lowerChar c = t) : c = t := by
  have hn := lowerChar_toNat c
  by_cases hc : 65 ≤ c.toNat ∧ c.toNat ≤ 90
  · exfalso
    rw [h] at hn
    simp [hc] at hn
    omega
  · rw [← h]
    unfold lowerChar
    rw [if_neg (by simp only [Bool.and_eq_true, decide_eq_true_eq, not_and]; exact fun h1 h2 => hc ⟨h1, h2⟩)]

theorem isQuoteChar_lowerChar_false {c : Char} (hq : isQuoteChar c = false) :
    isQuoteChar (lowerChar c) = false := by
  unfold isQuoteChar at *
  simp only [Bool.or_eq_false_iff, decide_eq_false_iff_not] at *
  have hn := lowerChar_toNat c
  by_cases hc : 65 ≤ c.toNat ∧ c.toNat ≤ 90 <;> simp [hc] at hn <;> rw [hn] <;> omega

theorem mem_lowerStr_noUpper {s : Str} {c : Char} (h : c ∈ lowerStr s) :
    upperAZ c = false := by
  obtain ⟨c', _, rfl⟩ := List.mem_map.mp h
  exact upperAZ_lowerChar c'

/-- `splitChar` never returns the empty list. -/
theorem splitChar_ne_nil (sep : Char) (s : Str) : splitChar sep s ≠ [] := by
  induction s with
  | nil => simp [splitChar]
  | cons c r ih =>
    unfold splitChar
    by_cases hc : c = sep
    · simp [hc]
    · simp only [hc, if_false]
      cases hr : splitChar sep r with
      | nil => simp
      | cons p ps => simp

/-- No piece produced by `splitChar` contains the separator. -/
theorem splitChar_no_sep (sep : Char) (s : Str) :
    ∀ p ∈ splitChar sep s, sep ∉ p := by
  induction s with
  | nil => intro p hp; simp [splitChar] at hp; simp [hp]
  | cons c r ih =>
    intro p hp
    unfold splitChar at hp
    by_cases hc : c = sep
    · simp only [hc, if_true] at hp
      rcases List.mem_cons.mp hp with hp | hp
      · simp [hp]
      · exact ih p hp
    · simp only [hc, if_false] at hp
      cases hr : splitChar sep r with
      | nil => exact absurd hr (splitChar_ne_nil sep r)
      | cons q qs =>
        rw [hr] at hp
        rcases List.mem_cons.mp hp with hp | hp
        · subst hp
          intro hmem
          rcases List.mem_cons.mp hmem with h | h
          · exact hc h.symm
          · exact ih q (by rw [hr]; exact List.mem_cons_self q qs) h
        · exact ih p (by rw [hr]; exact List.mem_cons_of_mem q hp)

theorem mem_getLastD {α : Type} (l : List α) (d : α) (h : l ≠ []) :
    l.getLastD d ∈ l := by
  cases l with
  | nil => exact absurd rfl h
  | cons a as =>
    rw [List.getLastD_eq_getLast?, List.getLast?_eq_getLast (a :: as) (by simp)]
    simp [List.getLast_mem]

/-- Membership in the deduplication helper implies membership in the
input. -/
theorem mem_dedupe_go {x : Str} : ∀ {seen l : List Str},
    x ∈ dedupeFirstSeen.go seen l → x ∈ l := by
  intro seen l
  induction l generalizing seen with
  | nil => intro h; simp [dedupeFirstSeen.go] at h
  | cons a as ih =>
    intro h
    unfold dedupeFirstSeen.go at h
    by_cases ha : a ∈ seen
    · simp [ha] at h
      exact List.mem_cons_of_mem a (ih h)
    · simp [ha] at h
      rcases h with h | h
      · simp [h]
      · exact List.mem_cons_of_mem a (ih h)

theorem mem_dedupeFirstSeen {x : Str} {l : List Str}
    (h : x ∈ dedupeFirstSeen l) : x ∈ l := mem_dedupe_go h

/-- Keys of the schema mapping are exactly the successful lookups. -/
theorem lookup_isSome_of_mem_keys {m : SchemaMap} {t : Str}
    (h : t ∈ mapKeys m) : (lookupMap m t).isSome := by
  induction m with
  | nil => simp [mapKeys] at h
  | cons e r ih =>
    unfold lookupMap
    by_cases he : e.1 = t
    · simp [he]
    · simp [he]
      rcases List.mem_cons.mp h with h' | h'
      · exact absurd h'.symm he
      · exact ih h'

/-- `unknown_tables` stays empty when every table has a mapping entry. -/
theorem unknownTablesIn_nil {m : SchemaMap} : ∀ {l : List Str},
    (∀ t ∈ l, (lookupMap m t).isSome) → unknownTablesIn l m = [] := by
  intro l
  induction l with
  | nil => intro _; rfl
  | cons a as ih =>
    intro h
    unfold unknownTablesIn at *
    simp only [List.foldl_cons]
    have ha := h a (List.mem_cons_self a as)
    cases hl : lookupMap m a with
    | none => rw [hl] at ha; simp at ha
    | some v =>
      simp only [hl]
      exact ih (fun t ht => h t (List.mem_cons_of_mem a ht))

/-- Every (re-lowered) filtered base table has a mapping entry. -/
theorem actualBaseTables_known {facts : ParsedQueryFacts} {m : SchemaMap} :
    ∀ t ∈ (actualBaseTables facts m).map lowerStr, (lookupMap m t).isSome := by
  intro t ht
  obtain ⟨u, hu, rfl⟩ := List.mem_map.mp ht
  unfold actualBaseTables at hu
  have hu' := List.of_mem_filter hu
  have humem := List.mem_of_mem_filter hu
  obtain ⟨v, _, rfl⟩ := List.mem_map.mp humem
  rw [lowerStr_idem]
  exact lookup_isSome_of_mem_keys (by simpa using hu')

theorem headNeStr (a b : Char) (xs ys : Str) (hne : a ≠ b) :
    (a :: xs : Str) ≠ b :: ys :=
  fun he => hne (congrArg (fun l => List.headD l a) he)

/-! ### Claim theorems, witnesses and counterexamples -/


theorem inspectResult_of_ne {q : Str} (h : inspectIssues q ≠ []) :
    inspectResult q = inspectIssuesStr q := by
  unfold inspectResult; rw [if_neg h]

theorem inspectResult_of_nil {q : Str} (h : inspectIssues q = []) :
    inspectResult q = q := by
  unfold inspectResult; rw [if_pos h]

/-- Claim C3 (amended): whenever the safety inspection produces a
non-empty issue list AND the resulting issues report differs from the
query text (the source detects issues by string comparison), the final
verdict is exactly the safety-issues report and the structural stage
(parser and conformance checker) is never reached.  The amendment is
forced by the degenerate fixed point exhibited in the
counterexample. -/
theorem c3_safety_short_circuit (q : Str) (parse : Except Str ParsedQueryFacts)
    (mapping : SchemaMap) (h1 : inspectIssues q ≠ []) (h2 : inspectIssuesStr q ≠ q) :
    query_validator q parse mapping = inspectIssuesStr q ∧
    structuralStageReached q = false := by
  have hres := inspectResult_of_ne h1
  refine ⟨?_, ?_⟩
  · unfold query_validator
    rw [hres, if_pos h2]
  · unfold structuralStageReached
    rw [hres]
    exact decide_eq_false h2

/-- Witness for C3: a `DROP` statement is rejected with exactly the
safety report and the structural stage is not reached. -/
theorem c3_witness :
    inspectIssues (str "DROP TABLE x") ≠ [] ∧
    inspectIssuesStr (str "DROP TABLE x") ≠ str "DROP TABLE x" ∧
    (query_validator (str "DROP TABLE x")
        (Except.ok (ParsedQueryFacts.mk [] [] [] [])) [] =
      inspectIssuesStr (str "DROP TABLE x") ∧
     structuralStageReached (str "DROP TABLE x") = false) :=
  ⟨by decide, by decide,
   c3_safety_short_circuit (str "DROP TABLE x") (Except.ok (ParsedQueryFacts.mk [] [] [] []))
     [] (by decide) (by decide)⟩

/-- Counterexample to C3 as stated: for the query equal to the issues
report that the inspector itself produces for it, the issue list is
non-empty, yet the validator proceeds to the structural stage (the
string comparison cannot distinguish the report from the query), and
with a parse failure the verdict is not the safety-issues string. -/
theorem c3_counterexample :
    inspectIssues (str "Detected issues while validating SQL query:\n- Only SELECT statements or CTEs (WITH...SELECT) are allowed.") ≠ [] ∧
    structuralStageReached (str "Detected issues while validating SQL query:\n- Only SELECT statements or CTEs (WITH...SELECT) are allowed.") = true ∧
    query_validator (str "Detected issues while validating SQL query:\n- Only SELECT statements or CTEs (WITH...SELECT) are allowed.")
      (Except.error (str "Parse error at token 0")) [] ≠
      inspectIssuesStr (str "Detected issues while validating SQL query:\n- Only SELECT statements or CTEs (WITH...SELECT) are allowed.") := by
  refine ⟨by decide, by decide, by decide⟩

/-- Claim C1 is violated by the code: `SELECT * FROM inventory;`
against the scenario-1 schema (which has no `inventory` table) is
returned unchanged (accepted) instead of being rejected with
a message naming the undefined table, because `query_validator`
filters unknown tables out of the list passed to
`validate_columns`. -/
theorem c1_code_accepts_undefined_table :
    query_validator (str "SELECT * FROM inventory;")
      (Except.ok (ParsedQueryFacts.mk [str "inventory"] [] [str "*"] []))
      scenario1Schema = str "SELECT * FROM inventory;" := by decide

/-- Claim C4 is violated by the code: on a query where the `;--`
unsafe-pattern check has already fired, the generic semicolon issue is
NOT suppressed; both issues are reported.  The suppression loop
searches the issue messages for the literal pattern text `;\s*--`,
but the messages quote the matched text (`;--`), so the flag is never
set. -/
theorem c4_semicolon_not_suppressed :
    inspectIssues (str "SELECT a FROM t ;-- x\nSELECT b") =
      [str "Potentially unsafe SQL pattern ';--' detected.",
       str "Avoid the use of semicolons (;) except possibly at the very end of the query."] := by
  decide

/-- Claim C6: the extractor maps the view DDL
`CREATE VIEW v AS (SELECT c.id, c.name AS full_name FROM c);` to
exactly `v -> ['*', 'id', 'full_name']`: the explicit `AS` alias is
preferred, otherwise the last dot-qualified segment is taken, names
are quote-stripped, lowercased and deduplicated after the leading
`*`. -/
theorem c6_view_mapping :
    generate_table_mapping_from_create_statements
      (str "CREATE VIEW v AS (SELECT c.id, c.name AS full_name FROM c);") =
      [(str "v", [str "*", str "id", str "full_name"])] := by decide

/-- Claim C8: against the scenario-1 schema (customers with
customer_id but no discount_rate), the query
`SELECT customer_id, discount_rate FROM customers;` is rejected with
the message naming the sorted, deduplicated offending columns
[discount_rate] and referenced tables [customers]. -/
theorem c8_invalid_column_message :
    query_validator (str "SELECT customer_id, discount_rate FROM customers;")
      (Except.ok (ParsedQueryFacts.mk [str "customers"] []
        [str "customer_id", str "discount_rate"] []))
      scenario1Schema =
      str "Validation Error: Columns [discount_rate] are not defined for the referenced tables [customers]" := by
  decide

/-- Claim C7: for a query that passes the safety inspection and whose
structural parse yields no tables and no CTE names, `query_validator`
accepts it (returns the query unchanged) exactly when every projected
column is all-digits, `*`, an aggregate-pattern match
(`COUNT|SUM|AVG|MIN|MAX` over `*`, an identifier or
`DISTINCT` identifier), or a zero-argument function call; otherwise it
returns the columns-without-table validation error. -/
theorem c7_tableless_query (q : Str) (facts : ParsedQueryFacts) (mapping : SchemaMap)
    (hSafe : inspectIssues q = []) (hT : facts.tables = [])
    (hW : facts.withNames = []) :
    query_validator q (Except.ok facts) mapping =
      (if facts.columns.all simpleColOk then q else simpleSelectErr) := by
  unfold query_validator
  rw [inspectResult_of_nil hSafe, if_neg (by simp)]
  dsimp only
  rw [hT, hW]
  simp

/-- Witness for C7 at a concrete table-less aggregate query. -/
theorem c7_witness :
    inspectIssues (str "SELECT COUNT(*), 42, now()") = [] ∧
    query_validator (str "SELECT COUNT(*), 42, now()")
      (Except.ok (ParsedQueryFacts.mk [] [] [str "COUNT(*)", str "42", str "now()"] [])) [] =
      (if ([str "COUNT(*)", str "42", str "now()"].all simpleColOk) then
        str "SELECT COUNT(*), 42, now()" else simpleSelectErr) :=
  ⟨by decide,
   c7_tableless_query (str "SELECT COUNT(*), 42, now()")
     (ParsedQueryFacts.mk [] [] [str "COUNT(*)", str "42", str "now()"] []) []
     (by decide) rfl rfl⟩

theorem splitFirstDot_sound : ∀ {s : Str} {pp : Str × Str},
    splitFirstDot s = some pp → s = pp.1 ++ '.' :: pp.2 ∧ '.' ∉ pp.1 := by
  intro s
  induction s with
  | nil => intro pp h; simp [splitFirstDot] at h
  | cons c r ih =>
    intro pp h
    unfold splitFirstDot at h
    by_cases hc : c = '.'
    · rw [if_pos hc] at h
      have hpp := (Option.some.inj h).symm
      subst hpp
      exact ⟨by simp [hc], by simp⟩
    · rw [if_neg hc] at h
      cases hr : splitFirstDot r with
      | none => rw [hr] at h; simp at h
      | some qq =>
        rw [hr] at h
        have hpp := (Option.some.inj h).symm
        subst hpp
        obtain ⟨hs1, hs2⟩ := ih hr
        refine ⟨by simp [hs1], ?_⟩
        intro hmem
        rcases List.mem_cons.mp hmem with h2 | h2
        · exact hc h2.symm
        · exact hs2 h2

theorem splitFirstDot_none : ∀ {s : Str}, '.' ∉ s → splitFirstDot s = none := by
  intro s
  induction s with
  | nil => intro _; rfl
  | cons c r ih =>
    intro h
    unfold splitFirstDot
    rw [if_neg (fun hc => h (by rw [hc]; exact List.mem_cons_self _ _))]
    rw [ih (fun hm => h (List.mem_cons_of_mem c hm))]

/-- Claim C9: when CTEs are present, a projected column enters the
conformance-validation set only if it is dot-prefixed with a known
base-table alias or base-table name; if no raw column carries a dot
prefix, the validation set is empty, so unprefixed columns can never
cause a column-conformance rejection. -/
theorem c9_cte_unqualified_columns_skipped (colsRaw aliases names : List Str) :
    (∀ c ∈ check_and_clean_columns colsRaw true aliases names,
      ∃ raw, raw ∈ colsRaw ∧ aggMatch raw = false ∧
        ∃ pp : Str × Str, raw = pp.1 ++ '.' :: pp.2 ∧ '.' ∉ pp.1 ∧
          lowerStr pp.1 ∈ aliases ++ names ∧ c = lowerStr pp.2) ∧
    ((∀ raw ∈ colsRaw, '.' ∉ raw) →
      check_and_clean_columns colsRaw true aliases names = []) := by
  constructor
  · intro c hc
    have hc2 := mem_dedupeFirstSeen hc
    obtain ⟨raw, hraw, hstep⟩ := List.mem_filterMap.mp hc2
    refine ⟨raw, hraw, ?_⟩
    unfold cleanColStep at hstep
    by_cases hagg : aggMatch raw = true
    · rw [if_pos hagg] at hstep; simp at hstep
    · rw [if_neg hagg, if_pos rfl] at hstep
      cases hsp : splitFirstDot raw with
      | none => rw [hsp] at hstep; simp at hstep
      | some pp =>
        rw [hsp] at hstep
        dsimp only at hstep
        by_cases hin : lowerStr pp.1 ∈ aliases ++ names
        · rw [if_pos hin] at hstep
          obtain ⟨hs1, hs2⟩ := splitFirstDot_sound hsp
          exact ⟨by simpa using hagg, pp, hs1, hs2, hin,
            (Option.some.inj hstep).symm⟩
        · rw [if_neg hin] at hstep; simp at hstep
  · intro hnodot
    unfold check_and_clean_columns
    have hfm : colsRaw.filterMap (cleanColStep true (aliases ++ names)) = [] := by
      apply List.filterMap_eq_nil_iff.mpr
      intro raw hraw
      unfold cleanColStep
      rw [splitFirstDot_none (hnodot raw hraw)]
      by_cases hagg : aggMatch raw = true <;> simp [hagg]
    rw [hfm]
    rfl

/-- Witness for C9: `t.name` with known base table `t` is validated
(as `name`), and the theorem recovers its provenance. -/
theorem c9_witness :
    (str "name") ∈ check_and_clean_columns [str "t.name", str "flag"] true [] [str "t"] ∧
    (∃ raw, raw ∈ [str "t.name", str "flag"] ∧ aggMatch raw = false ∧
      ∃ pp : Str × Str, raw = pp.1 ++ '.' :: pp.2 ∧ '.' ∉ pp.1 ∧
        lowerStr pp.1 ∈ ([] : List Str) ++ [str "t"] ∧ str "name" = lowerStr pp.2) :=
  ⟨by decide,
   (c9_cte_unqualified_columns_skipped [str "t.name", str "flag"] [] [str "t"]).1
     (str "name") (by decide)⟩

/-- Claim C2 (amended): a query that starts with `SELECT` (or a
`WITH ... SELECT` CTE header), contains no disallowed keywords, no
unsafe patterns, no `UNION`, no semicolon other than a trailing one,
has `ORDER BY` whenever `LIMIT`/`OFFSET` is used and all `JOIN`s
qualified, and references only schema tables and columns, is returned
exactly unchanged.  The amendment (the three extra inspector
conditions) is forced by the UNION counterexample. -/
theorem c2_round_trip (q : Str) (facts : ParsedQueryFacts) (mapping : SchemaMap)
    (hStart : selectOnlySegment q = [])
    (hKw : disallowedIssues q = [])
    (hUnsafe : unsafeIssues q = [])
    (hLimit : limitOffsetIssue q = none)
    (hSemi : semicolonMisuse q = false)
    (hJoin : joinIssue q = none)
    (hUnion : unionIssue q = none)
    (hTables : ∀ t ∈ facts.tables, lowerStr t ∈ mapKeys mapping)
    (hCols : ∀ c ∈ cleanedColumnsOf facts mapping,
        c ∈ validColumnsSet mapping ((actualBaseTables facts mapping).map lowerStr))
    (hSimple : facts.tables = [] → facts.withNames = [] →
        ∀ c ∈ facts.columns, simpleColOk c) :
    query_validator q (Except.ok facts) mapping = q := by
  have hnil : inspectIssues q = [] := by
    unfold inspectIssues issuesBeforeSemicolon semicolonSegment
    rw [hStart, hKw, hUnsafe, hLimit, hSemi, hJoin, hUnion]
    simp
  unfold query_validator
  rw [inspectResult_of_nil hnil, if_neg (by simp)]
  dsimp only
  by_cases hbranch : ((facts.tables.map lowerStr).isEmpty && facts.withNames.isEmpty) = true
  · rw [if_pos hbranch]
    simp only [Bool.and_eq_true, List.isEmpty_iff] at hbranch
    have hTnil : facts.tables = [] := List.map_eq_nil_iff.mp hbranch.1
    have hAll : facts.columns.all simpleColOk = true :=
      List.all_eq_true.mpr (fun c hcm => hSimple hTnil hbranch.2 c hcm)
    rw [hAll]
    simp
  · rw [if_neg hbranch]
    have hr : conformanceResult facts mapping = (true, []) := by
      unfold conformanceResult validate_columns
      rw [unknownTablesIn_nil actualBaseTables_known]
      have hinv : invalidColumnsIn (cleanedColumnsOf facts mapping) mapping
          ((actualBaseTables facts mapping).map lowerStr) = [] := by
        unfold invalidColumnsIn
        apply List.filter_eq_nil_iff.mpr
        intro c hcm
        simp [hCols c hcm]
      rw [hinv]
      simp
    rw [hr]
    simp

/-- Witness for C2: scenario 1 — `SELECT first_name, email FROM
customers;` against the extracted scenario-1 schema is accepted with
output equal to input. -/
theorem c2_witness :
    selectOnlySegment (str "SELECT first_name, email FROM customers;") = [] ∧
    disallowedIssues (str "SELECT first_name, email FROM customers;") = [] ∧
    unsafeIssues (str "SELECT first_name, email FROM customers;") = [] ∧
    limitOffsetIssue (str "SELECT first_name, email FROM customers;") = none ∧
    semicolonMisuse (str "SELECT first_name, email FROM customers;") = false ∧
    joinIssue (str "SELECT first_name, email FROM customers;") = none ∧
    unionIssue (str "SELECT first_name, email FROM customers;") = none ∧
    (∀ t ∈ scenario1Facts.tables, lowerStr t ∈ mapKeys scenario1Schema) ∧
    (∀ c ∈ cleanedColumnsOf scenario1Facts scenario1Schema,
      c ∈ validColumnsSet scenario1Schema
        ((actualBaseTables scenario1Facts scenario1Schema).map lowerStr)) ∧
    query_validator (str "SELECT first_name, email FROM customers;")
      (Except.ok scenario1Facts) scenario1Schema =
      str "SELECT first_name, email FROM customers;" :=
  ⟨by decide, by decide, by decide, by decide, by decide, by decide, by decide,
   by decide, by decide,
   c2_round_trip (str "SELECT first_name, email FROM customers;") scenario1Facts
     scenario1Schema (by decide) (by decide) (by decide) (by decide) (by decide)
     (by decide) (by decide) (by decide) (by decide) (by decide)⟩

/-- Counterexample to C2 as stated: `SELECT a FROM t UNION SELECT b
FROM t` satisfies every condition listed in the claim (no disallowed
keywords, no unsafe patterns, LIMIT/JOIN checks pass, all tables and
columns in the schema) yet is rejected, because the inspector also
flags `UNION`. -/
theorem c2_counterexample :
    disallowedIssues (str "SELECT a FROM t UNION SELECT b FROM t") = [] ∧
    unsafeIssues (str "SELECT a FROM t UNION SELECT b FROM t") = [] ∧
    limitOffsetIssue (str "SELECT a FROM t UNION SELECT b FROM t") = none ∧
    joinIssue (str "SELECT a FROM t UNION SELECT b FROM t") = none ∧
    (∀ t ∈ (ParsedQueryFacts.mk [str "t"] [] [str "a", str "b"] []).tables,
      lowerStr t ∈ mapKeys [(str "t", [str "*", str "a", str "b"])]) ∧
    (∀ c ∈ cleanedColumnsOf (ParsedQueryFacts.mk [str "t"] [] [str "a", str "b"] [])
        [(str "t", [str "*", str "a", str "b"])],
      c ∈ validColumnsSet [(str "t", [str "*", str "a", str "b"])]
        ((actualBaseTables (ParsedQueryFacts.mk [str "t"] [] [str "a", str "b"] [])
          [(str "t", [str "*", str "a", str "b"])]).map lowerStr)) ∧
    query_validator (str "SELECT a FROM t UNION SELECT b FROM t")
      (Except.ok (ParsedQueryFacts.mk [str "t"] [] [str "a", str "b"] []))
      [(str "t", [str "*", str "a", str "b"])] ≠
      str "SELECT a FROM t UNION SELECT b FROM t" := by
  refine ⟨by decide, by decide, by decide, by decide, by decide, by decide, by decide⟩

theorem icStarts_cons_ne {p : Char} {ps : Str} {c : Char} {cs : Str}
    (h : lowerChar c ≠ p) : icStarts (p :: ps) (c :: cs) = false := by
  unfold icStarts icDrop
  rw [if_neg h]
  rfl

theorem icDrop_cons_ne {p : Char} {ps : Str} {c : Char} {cs : Str}
    (h : lowerChar c ≠ p) : icDrop (p :: ps) (c :: cs) = none := by
  unfold icDrop
  rw [if_neg h]

theorem startsSelect_cons {c : Char} {rest : Str} (hws : isWsChar c = false)
    (hs : lowerChar c ≠ 's') : startsSelect (c :: rest) = false := by
  unfold startsSelect
  rw [List.dropWhile_cons]
  rw [hws]
  simp only [Bool.false_eq_true, if_false]
  exact icStarts_cons_ne hs

theorem withCteMatch_cons {c : Char} {rest : Str} (hws : isWsChar c = false)
    (hw : lowerChar c ≠ 'w') : withCteMatch (c :: rest) = false := by
  unfold withCteMatch
  rw [List.dropWhile_cons]
  rw [hws]
  simp only [Bool.false_eq_true, if_false]
  have h1 : icDrop (str "with") (c :: rest) = none := icDrop_cons_ne hw
  rw [h1]

theorem inspectIssues_ne_nil_of_head {c : Char} {rest : Str}
    (hws : isWsChar c = false) (hs : lowerChar c ≠ 's')
    (hw : lowerChar c ≠ 'w') : inspectIssues (c :: rest) ≠ [] := by
  unfold inspectIssues issuesBeforeSemicolon selectOnlySegment
  rw [startsSelect_cons hws hs, withCteMatch_cons hws hw]
  simp

theorem charAt_clash (n : Nat) {a b : Str} (he : a = b)
    (h : a.getD n ' ' ≠ b.getD n ' ') : False :=
  h (by rw [he])

theorem accepted_ne_validationError (q : Str) (issues : List Str)
    (hq : inspectResult q = q) : q ≠ validationErrorOf issues := by
  intro heq
  have hne : inspectIssues (validationErrorOf issues) ≠ [] :=
    inspectIssues_ne_nil_of_head (by decide) (by decide) (by decide)
  rw [heq] at hq
  rw [inspectResult_of_ne hne] at hq
  exact charAt_clash 0 hq (show ('D' : Char) ≠ 'V' by decide)

theorem conformanceResult_shape (facts : ParsedQueryFacts) (mapping : SchemaMap) :
    conformanceResult facts mapping = (true, []) ∨
    ∃ inv tl, conformanceResult facts mapping =
      (false, [columnsNotDefinedMsg inv tl]) := by
  unfold conformanceResult validate_columns
  rw [unknownTablesIn_nil actualBaseTables_known]
  simp only [List.isEmpty_nil, if_true]
  by_cases hinv : (invalidColumnsIn (cleanedColumnsOf facts mapping) mapping
      ((actualBaseTables facts mapping).map lowerStr)).isEmpty = true
  · left
    rw [if_pos hinv]
  · right
    exact ⟨_, _, by rw [if_neg hinv]⟩

/-- Claim C5: `query_validator` can never return the
undefined-tables verdict: the table list passed to `validate_columns`
is pre-filtered to schema keys, so its `unknown_tables` branch is
unreachable, and no verdict string of the validator equals
`Validation Error: Query references undefined tables: ...`. -/
theorem c5_no_undefined_tables_verdict :
    (∀ (q : Str) (parse : Except Str ParsedQueryFacts) (mapping : SchemaMap)
       (ts : List Str),
      query_validator q parse mapping ≠ validationErrorOf [undefinedTablesMsg ts]) ∧
    (∀ (facts : ParsedQueryFacts) (mapping : SchemaMap),
      unknownTablesIn ((actualBaseTables facts mapping).map lowerStr) mapping = []) := by
  constructor
  · intro q parse mapping ts heq
    unfold query_validator at heq
    by_cases hout : inspectResult q ≠ q
    · rw [if_pos hout] at heq
      by_cases hnil : inspectIssues q = []
      · exact hout (inspectResult_of_nil hnil)
      · rw [inspectResult_of_ne hnil] at heq
        exact charAt_clash 0 heq (show ('D' : Char) ≠ 'V' by decide)
    · rw [if_neg hout] at heq
      have hq : inspectResult q = q := not_not.mp hout
      cases parse with
      | error e =>
        dsimp only at heq
        by_cases hc : (containsSub (str "Unknown token") e ||
            containsSub (str "Parse") e || containsSub (str "Syntax error") e) = true
        · rw [if_pos hc] at heq
          exact charAt_clash 18 heq (show ('F' : Char) ≠ 'Q' by decide)
        · rw [if_neg hc] at heq
          exact charAt_clash 18 heq (show ('A' : Char) ≠ 'Q' by decide)
      | ok facts =>
        dsimp only at heq
        by_cases hb : ((facts.tables.map lowerStr).isEmpty &&
            facts.withNames.isEmpty) = true
        · rw [if_pos hb] at heq
          by_cases hall : (facts.columns.all simpleColOk) = true
          · rw [if_pos hall] at heq
            exact accepted_ne_validationError q _ hq heq
          · rw [if_neg hall] at heq
            exact charAt_clash 18 heq (show ('C' : Char) ≠ 'Q' by decide)
        · rw [if_neg hb] at heq
          rcases conformanceResult_shape facts mapping with hr | ⟨inv, tl, hr⟩
          · rw [hr] at heq
            dsimp only at heq
            exact accepted_ne_validationError q _ hq heq
          · rw [hr] at heq
            dsimp only at heq
            exact charAt_clash 18 heq (show ('C' : Char) ≠ 'Q' by decide)
  · intro facts mapping
    exact unknownTablesIn_nil actualBaseTables_known

/-- Witness for C5 at a concrete accepted query. -/
theorem c5_witness :
    query_validator (str "SELECT x FROM t")
      (Except.ok (ParsedQueryFacts.mk [str "t"] [] [str "x"] []))
      [(str "t", [str "*", str "x"])] ≠
      validationErrorOf [undefinedTablesMsg [str "t"]] :=
  c5_no_undefined_tables_verdict.1 (str "SELECT x FROM t")
    (Except.ok (ParsedQueryFacts.mk [str "t"] [] [str "x"] []))
    [(str "t", [str "*", str "x"])] [str "t"]

theorem lastDotSegment_no_dot (raw : Str) : '.' ∉ lastDotSegment raw := by
  unfold lastDotSegment
  by_cases h : '.' ∈ raw
  · rw [if_pos h]
    exact splitChar_no_sep '.' raw _ (mem_getLastD _ _ (splitChar_ne_nil '.' raw))
  · rw [if_neg h]; exact h

theorem normalizeTableName_good (raw : Str) :
    (∀ c ∈ normalizeTableName raw, upperAZ c = false) ∧
    (∀ c ∈ normalizeTableName raw, isQuoteChar c = false) ∧
    '.' ∉ normalizeTableName raw := by
  unfold normalizeTableName
  refine ⟨fun c hc => mem_lowerStr_noUpper hc, ?_, ?_⟩
  · intro c hc
    obtain ⟨c2, hc2, rfl⟩ := List.mem_map.mp hc
    have hq : isQuoteChar c2 = false := by
      unfold stripQuotesF at hc2
      have := List.of_mem_filter hc2
      simpa using this
    exact isQuoteChar_lowerChar_false hq
  · intro hc
    obtain ⟨c2, hc2, heq⟩ := List.mem_map.mp hc
    have hcd : c2 = '.' := lowerChar_fixed_target (by decide) heq
    subst hcd
    exact lastDotSegment_no_dot raw (List.mem_of_mem_filter hc2)

theorem goodColsInv_init : goodColsInv [str "*"] := by
  refine ⟨by simp, rfl, ?_, by simp⟩
  intro s hs c hc
  rcases List.mem_singleton.mp hs with rfl
  rcases List.mem_singleton.mp hc with rfl
  decide

theorem goodColsInv_append {cols : List Str} {n : Str} (h : goodColsInv cols)
    (hl : ∀ c ∈ n, upperAZ c = false) (hn : n ∉ cols) :
    goodColsInv (cols ++ [n]) := by
  obtain ⟨hne, hhead, hlow, hnd⟩ := h
  refine ⟨by simp, ?_, ?_, ?_⟩
  · cases cols with
    | nil => exact absurd rfl hne
    | cons a as => simpa using hhead
  · intro s hs c hc
    rcases List.mem_append.mp hs with hmem | hmem
    · exact hlow s hmem c hc
    · rcases List.mem_singleton.mp hmem with rfl
      exact hl c hc
  · rw [List.nodup_append]
    refine ⟨hnd, List.nodup_singleton n, ?_⟩
    intro a ha hmem
    rcases List.mem_singleton.mp hmem with rfl
    exact hn ha

theorem viewColName_lower (piece : Str) :
    ∀ c ∈ viewColName piece, upperAZ c = false := by
  intro c hc
  unfold viewColName at hc
  cases h : aliasSearch (stripStr piece) with
  | some run => rw [h] at hc; exact mem_lowerStr_noUpper hc
  | none => rw [h] at hc; exact mem_lowerStr_noUpper hc

theorem addViewCol_inv {cols : List Str} (piece : Str) (h : goodColsInv cols) :
    goodColsInv (addViewCol cols piece) := by
  unfold addViewCol
  by_cases hg : (!(viewColName piece).isEmpty && !decide (viewColName piece ∈ cols) &&
      !decide (viewColName piece = str "*")) = true
  · rw [if_pos hg]
    simp only [Bool.and_eq_true, Bool.not_eq_true', decide_eq_false_iff_not,
      List.isEmpty_eq_false] at hg
    exact goodColsInv_append h (viewColName_lower piece) hg.1.2
  · rw [if_neg hg]; exact h

theorem addTableCol_inv {cols : List Str} (colDef : Str) (h : goodColsInv cols) :
    goodColsInv (addTableCol cols colDef) := by
  unfold addTableCol
  by_cases h1 : constraintMatch colDef = true
  · rw [if_pos h1]; exact h
  · rw [if_neg h1]
    by_cases h2 : ((colDef.dropWhile isWsChar).takeWhile isColNameChar).isEmpty = true
    · rw [if_pos h2]; exact h
    · rw [if_neg h2]
      by_cases h3 : lowerStr (stripQuotesF
          ((colDef.dropWhile isWsChar).takeWhile isColNameChar)) ∈ cols
      · rw [if_pos h3]; exact h
      · rw [if_neg h3]
        exact goodColsInv_append h (fun c hc => mem_lowerStr_noUpper hc) h3

theorem foldl_preserve {α β : Type} {P : β → Prop} {f : β → α → β}
    (hf : ∀ b a, P b → P (f b a)) : ∀ (l : List α) {b : β}, P b → P (l.foldl f b) := by
  intro l
  induction l with
  | nil => intro b h; exact h
  | cons x xs ih => intro b h; exact ih (hf b x h)

theorem discoverColumns_inv (stmt : Str) : goodColsInv (discoverColumns stmt) := by
  unfold discoverColumns
  cases hv : viewSelectSearch stmt with
  | some g =>
    exact foldl_preserve (fun cols piece hcp => addViewCol_inv piece hcp) _ goodColsInv_init
  | none =>
    cases hcs : columnsSearch stmt with
    | some g =>
      exact foldl_preserve (fun cols cd hcp => addTableCol_inv cd hcp) _ goodColsInv_init
    | none => exact goodColsInv_init

theorem mem_upsert {m : SchemaMap} {k k' : Str} {v v' : List Str}
    (h : (k, v) ∈ upsert m k' v') : (k, v) ∈ m ∨ (k = k' ∧ v = v') := by
  induction m with
  | nil =>
    unfold upsert at h
    rcases List.mem_singleton.mp h with heq
    exact Or.inr ⟨congrArg Prod.fst heq, congrArg Prod.snd heq⟩
  | cons e r ih =>
    unfold upsert at h
    by_cases he : e.1 = k'
    · rw [if_pos he] at h
      rcases List.mem_cons.mp h with h2 | h2
      · exact Or.inr ⟨congrArg Prod.fst h2, congrArg Prod.snd h2⟩
      · exact Or.inl (List.mem_cons_of_mem e h2)
    · rw [if_neg he] at h
      rcases List.mem_cons.mp h with h2 | h2
      · rw [h2]; exact Or.inl (List.mem_cons_self e r)
      · rcases ih h2 with h3 | h3
        · exact Or.inl (List.mem_cons_of_mem e h3)
        · exact Or.inr h3

theorem processStatement_inv {acc : SchemaMap} (stmtRaw : Str)
    (h : ∀ e ∈ acc, goodEntry e.1 e.2) :
    ∀ e ∈ processStatement acc stmtRaw, goodEntry e.1 e.2 := by
  unfold processStatement
  by_cases hs : (stripStr stmtRaw).isEmpty = true
  · rw [if_pos hs]; exact h
  · rw [if_neg hs]
    cases hcm : createMatch (stripStr stmtRaw) with
    | none => exact h
    | some raw =>
      dsimp only
      by_cases hl : 1 < (discoverColumns (stripStr stmtRaw)).length
      · rw [if_pos hl]
        intro e he
        obtain ⟨k, v⟩ := e
        rcases mem_upsert he with h2 | h2
        · exact h (k, v) h2
        · obtain ⟨hk, hv⟩ := h2
          subst hk; subst hv
          obtain ⟨hg1, hg2, hg3⟩ := normalizeTableName_good raw
          obtain ⟨_, hh, hlow, hnd⟩ := discoverColumns_inv (stripStr stmtRaw)
          exact ⟨hg1, hg2, hg3, hh, hlow, hnd, hl⟩
      · rw [if_neg hl]; exact h

/-- Claim C10: every entry of the extracted schema mapping has an
uppercase-free, quote-free, dot-free (schema-unqualified) key, and a
column list headed by the `*` sentinel whose entries are
uppercase-free and duplicate-free, with at least one discovered column
beyond `*` (length at least 2). -/
theorem c10_schema_mapping_invariant (ddl : Str) (k : Str) (cols : List Str)
    (h : (k, cols) ∈ generate_table_mapping_from_create_statements ddl) :
    (∀ c ∈ k, upperAZ c = false) ∧ (∀ c ∈ k, isQuoteChar c = false) ∧ '.' ∉ k ∧
    cols.head? = some (str "*") ∧ (∀ s ∈ cols, ∀ c ∈ s, upperAZ c = false) ∧
    cols.Nodup ∧ 2 ≤ cols.length := by
  have hmain : ∀ e ∈ generate_table_mapping_from_create_statements ddl,
      goodEntry e.1 e.2 := by
    unfold generate_table_mapping_from_create_statements
    exact @foldl_preserve Str SchemaMap (fun m => ∀ e ∈ m, goodEntry e.1 e.2)
      processStatement (fun acc stmt hacc => processStatement_inv stmt hacc)
      (splitChar ';' ddl) [] (fun e he => absurd he (List.not_mem_nil e))
  exact hmain (k, cols) h

/-- Witness for C10 on the scenario-1 DDL. -/
theorem c10_witness :
    (str "customers", [str "*", str "customer_id", str "first_name", str "email"]) ∈
      generate_table_mapping_from_create_statements scenario1DDL ∧
    ((∀ c ∈ str "customers", upperAZ c = false) ∧
     (∀ c ∈ str "customers", isQuoteChar c = false) ∧ '.' ∉ str "customers" ∧
     ([str "*", str "customer_id", str "first_name", str "email"] : List Str).head? =
       some (str "*") ∧
     (∀ s ∈ ([str "*", str "customer_id", str "first_name", str "email"] : List Str),
       ∀ c ∈ s, upperAZ c = false) ∧
     ([str "*", str "customer_id", str "first_name", str "email"] : List Str).Nodup ∧
     2 ≤ ([str "*", str "customer_id", str "first_name", str "email"] : List Str).length) :=
  ⟨by decide,
   c10_schema_mapping_invariant scenario1DDL (str "customers")
     [str "*", str "customer_id", str "first_name", str "email"] (by decide)⟩

end SqlV
